import Mathlib

set_option maxRecDepth 8000

/-!
Shallow embedding of the Collaborative Canvas server core
(server/drawing-state.js, server/rooms.js, server/server.js).

JavaScript values that may be `undefined`, `null`, or present are
modelled with `Option` (and small variant types where the code
distinguishes `null` from `undefined`).  JavaScript truthiness of
strings (empty string falsy) and numbers (zero falsy) is modelled
explicitly by the `jsOr...` helpers.
-/

namespace Canvas

/-- 2D point of a stroke path. -/
abbrev Point := Int × Int

/-- JS value held in a `points` field: `undefined`, `null`, or an array. -/
inductive JsPoints where
  | undef
  | null
  | arr (pts : List Point)
deriving DecidableEq, Repr

/-- JS value held in a `bbox` field: `undefined`, `null`, or a box object. -/
inductive JsBox where
  | undef
  | null
  | box (x y w h : Int)
deriving DecidableEq, Repr

/-- An incoming client event as received by `handleDrawingEvent`.
All fields may be absent (`undefined`), modelled as `none` / `.undef`. -/
structure Event where
  type : Option String := none
  userId : Option String := none
  opId : Option String := none
  targetOpId : Option String := none
  points : JsPoints := .undef
  start : Option Point := none
  tool : Option String := none
  color : Option String := none
  size : Option Int := none
  bbox : JsBox := .undef
deriving DecidableEq, Repr

/-- JS truthiness of an optional string: `undefined`, `null` and `""` are falsy. -/
def strTruthy : Option String → Bool
  | some s => s != ""
  | none => false

/-- JS `a || b` where `a` is an optional string and `b` a string. -/
def jsOrStr : Option String → String → String
  | some s, b => if s == "" then b else s
  | none, b => b

/-- JS `a || null` for an optional string (empty string collapses to null). -/
def jsToNull : Option String → Option String
  | some s => if s == "" then none else some s
  | none => none

/-- JS `a || b` for an optional number (`0` is falsy). -/
def jsOrInt : Option Int → Int → Int
  | some n, b => if n == 0 then b else n
  | none, b => b

/-- Payload handed to `appendOp` (the object literals built in
`handleDrawingEvent`). -/
structure Payload where
  type : String
  opId : Option String := none
  userId : Option String := none
  points : JsPoints := .undef
  tool : Option String := none
  color : Option String := none
  size : Option Int := none
  bbox : JsBox := .undef
  targetOpId : Option String := none
  undone : Bool := false
  raw : Option Event := none
deriving DecidableEq, Repr

/-- An operation stored in a room's `opLog`. -/
structure Op where
  seq : Nat
  opId : String
  type : String
  userId : Option String
  points : JsPoints
  tool : Option String
  color : Option String
  size : Option Int
  bbox : JsBox
  targetOpId : Option String
  timestamp : Nat
  undone : Bool
  raw : Option Event
deriving DecidableEq, Repr

/-- Per-room drawing state: `{ opLog: [], nextSeq: 1 }`. -/
structure RoomState where
  opLog : List Op
  nextSeq : Nat
deriving DecidableEq, Repr

/-- The state a freshly created room starts from. -/
def initRoomState : RoomState := { opLog := [], nextSeq := 1 }

/-- Source `appendOp(state, opPayload)`: assigns `seq` from `nextSeq`,
ensures `opId` (`opPayload.opId || generateId()`, the generated id passed
in as `fresh`), normalizes `userId` and `targetOpId` with `|| null`,
coerces `undone` with `!!`, stamps `timestamp` (passed in as `now`),
pushes the op and returns it.  The JS conditional on `points`
(`points || points === null ? points : undefined`) is the identity on
our three-valued `JsPoints` model, since arrays (also empty ones) are
truthy. -/
def appendOp (st : RoomState) (p : Payload) (fresh : String) (now : Nat) :
    RoomState × Op :=
  let op : Op :=
    { seq := st.nextSeq
      opId := jsOrStr p.opId fresh
      type := p.type
      userId := jsToNull p.userId
      points := p.points
      tool := p.tool
      color := p.color
      size := p.size
      bbox := p.bbox
      targetOpId := jsToNull p.targetOpId
      timestamp := now
      undone := p.undone
      raw := p.raw }
  ({ opLog := st.opLog ++ [op], nextSeq := st.nextSeq + 1 }, op)

/-- The test `t.startsWith("stroke")`. -/
def startsWithStroke (t : String) : Bool :=
  "stroke".data.isPrefixOf t.data

/-- The test `cand.userId === u && cand.type && cand.type.startsWith("stroke")`:
the candidate is a stroke operation authored by `u`. -/
def strokeBy (u : String) (cand : Op) : Bool :=
  cand.userId == some u && (cand.type != "" && startsWithStroke cand.type)

/-- Undo scan predicate: stroke by `u` that is not undone. -/
def undoCandidate (u : String) (cand : Op) : Bool :=
  strokeBy u cand && !cand.undone

/-- Redo scan predicate: stroke by `u` that is undone. -/
def redoCandidate (u : String) (cand : Op) : Bool :=
  strokeBy u cand && cand.undone

/-- The `targetOpId` value after the resolution phase of the undo/redo
branch of `handleDrawingEvent`: `event.targetOpId || null`, then, when
that is falsy and `event.userId` is truthy, a reverse scan of `opLog`
for the most recent matching stroke by that user. -/
def resolveTarget (st : RoomState) (e : Event) (ty : String) : Option String :=
  match jsToNull e.targetOpId with
  | some t => some t
  | none =>
    match e.userId with
    | some u =>
      if u == "" then none
      else if ty == "undo" then
        (st.opLog.reverse.find? (undoCandidate u)).map Op.opId
      else
        (st.opLog.reverse.find? (redoCandidate u)).map Op.opId
    | none => none

/-- Replace the `undone` flag of the op at a given index, leaving every
other field and every other op untouched (the in-place mutation
`state.opLog[targetIndex].undone = b`). -/
def setUndoneAt : List Op → Nat → Bool → List Op
  | [], _, _ => []
  | o :: rest, 0, b => { o with undone := b } :: rest
  | o :: rest, Nat.succ n, b => o :: setUndoneAt rest n b

/-- The undo/redo branch of `handleDrawingEvent` (`ty` is `"undo"` or
`"redo"`).  Returns the new room state and the single op appended and
broadcast. -/
def handleUndoRedo (st : RoomState) (e : Event) (ty : String)
    (fresh : String) (now : Nat) : RoomState × Op :=
  let t := resolveTarget st e ty
  if strTruthy t = false then
    appendOp st { type := ty, userId := e.userId, targetOpId := none } fresh now
  else
    let tid := t.getD ""
    match st.opLog.findIdx? (fun o => o.opId == tid) with
    | none =>
      appendOp st { type := ty, userId := e.userId, targetOpId := some tid }
        fresh now
    | some idx =>
      let st2 : RoomState :=
        { st with opLog := setUndoneAt st.opLog idx (ty == "undo") }
      appendOp st2 { type := ty, userId := e.userId, targetOpId := some tid }
        fresh now

/-- The canonical op payload built in the stroke branch of
`handleDrawingEvent`. -/
def strokePayload (e : Event) (t : String) (fresh : String) : Payload :=
  { type := t
    userId := jsToNull e.userId
    opId := some (jsOrStr e.opId fresh)
    points :=
      match e.points with
      | .arr l => .arr l
      | _ =>
        match e.start with
        | some p => .arr [p]
        | none => .undef
    tool := some (jsOrStr e.tool "brush")
    color := some (jsOrStr e.color "#000000")
    size := some (jsOrInt e.size 4)
    bbox :=
      match e.bbox with
      | .box x y w h => .box x y w h
      | _ => .null }

/-- Source `handleDrawingEvent` restricted to one room's state (the body of the
source function after `getOrCreateRoomState`).  `fresh` stands for the
value `generateId()` would produce and `now` for `Date.now()`.  Every
branch appends exactly one op and broadcasts it; the broadcast op is
returned. -/
def handleEventInRoom (st : RoomState) (e : Event) (fresh : String)
    (now : Nat) : RoomState × Op :=
  if e.type == some "undo" || e.type == some "redo" then
    handleUndoRedo st e (if e.type == some "undo" then "undo" else "redo")
      fresh now
  else if strTruthy e.type && startsWithStroke (e.type.getD "") then
    appendOp st (strokePayload e (e.type.getD "") fresh) fresh now
  else
    appendOp st
      { type := jsOrStr e.type "unknown"
        userId := jsToNull e.userId
        raw := some e } fresh now

/-- The global `roomStates` map of drawing-state.js. -/
abbrev RoomStates := String → Option RoomState

/-- The map before any room is created. -/
def emptyRoomStates : RoomStates := fun _ => none

/-- Source `getOrCreateRoomState(roomId)`: lazily creates `{opLog: [], nextSeq: 1}`. -/
def getOrCreateRoomState (m : RoomStates) (roomId : String) :
    RoomStates × RoomState :=
  match m roomId with
  | some st => (m, st)
  | none =>
    ((fun r => if r == roomId then some initRoomState else m r), initRoomState)

/-- Store an updated room state back into the map (the JS code mutates
the object held in the map in place). -/
def setRoomState (m : RoomStates) (roomId : String) (st : RoomState) :
    RoomStates :=
  fun r => if r == roomId then some st else m r

/-- Source `handleDrawingEvent(roomId, event, io)` at the level of the global map. -/
def handleDrawingEvent (m : RoomStates) (roomId : String) (e : Event)
    (fresh : String) (now : Nat) : RoomStates × Op :=
  let p := getOrCreateRoomState m roomId
  let r := handleEventInRoom p.2 e fresh now
  (setRoomState p.1 roomId r.1, r.2)

/-- The `room_state` message built by `getCanvasState`. -/
structure CanvasState where
  opLogTail : List Op
  lastSeq : Nat
deriving DecidableEq, Repr

/-- The slice `arr.slice(-n)`: the last `n` elements (the whole list when shorter). -/
def sliceLast (n : Nat) (l : List Op) : List Op :=
  l.drop (l.length - n)

/-- The pure part of `getCanvasState`: last 1000 ops and `nextSeq - 1`. -/
def canvasStateOfRoom (st : RoomState) : CanvasState :=
  { opLogTail := sliceLast 1000 st.opLog
    lastSeq := st.nextSeq - 1 }

/-- Source `getCanvasState(roomId)`: note it calls `getOrCreateRoomState`, so it
creates the room's drawing state as a side effect when absent. -/
def getCanvasState (m : RoomStates) (roomId : String) :
    RoomStates × CanvasState :=
  let p := getOrCreateRoomState m roomId
  (p.1, canvasStateOfRoom p.2)

/-- Source `clearRoomState(roomId)`: deletes the drawing state for a room.
Exported by drawing-state.js but called from nowhere in the repository. -/
def clearRoomState (m : RoomStates) (roomId : String) : RoomStates :=
  fun r => if r == roomId then none else m r

/-! ## Room registry (server/rooms.js) and socket handlers (server/server.js) -/

/-- Member record stored per connection in a room. -/
structure UserInfo where
  userId : String
  displayName : Option String
deriving DecidableEq, Repr

/-- A membership room: `{ users: { socketId: {userId, displayName} } }`,
modelled as an insertion-ordered association list. -/
structure Room where
  users : List (String × UserInfo)
deriving DecidableEq, Repr

/-- The global `rooms` map of rooms.js, insertion-ordered as a JS object. -/
abbrev Rooms := List (String × Room)

/-- Association lookup (`rooms[roomId]`). -/
def lookupRoom (rs : Rooms) (roomId : String) : Option Room :=
  (rs.find? (fun p => p.1 == roomId)).map Prod.snd

/-- Source `createRoom(roomId)`: inserts an empty room if absent. -/
def createRoom (rs : Rooms) (roomId : String) : Rooms :=
  if (lookupRoom rs roomId).isSome then rs
  else rs ++ [(roomId, { users := [] })]

/-- The assignment `room.users[socket.id] = { userId, displayName }` on a user table. -/
def setUser (users : List (String × UserInfo)) (sockId : String)
    (info : UserInfo) : List (String × UserInfo) :=
  if (users.find? (fun p => p.1 == sockId)).isSome then
    users.map (fun p => if p.1 == sockId then (sockId, info) else p)
  else users ++ [(sockId, info)]

/-- Apply `setUser` to the room stored under `roomId`. -/
def setUserInRoom (rs : Rooms) (roomId : String) (sockId : String)
    (info : UserInfo) : Rooms :=
  rs.map (fun p =>
    if p.1 == roomId then (p.1, { users := setUser p.2.users sockId info })
    else p)

/-- Source `removeUserFromRoom(socketId)`: scans rooms in insertion order, removes
the connection from the first room holding it, deletes the room when its
membership becomes empty, and returns that roomId. -/
def removeUserFromRoom : Rooms → String → Rooms × Option String
  | [], _ => ([], none)
  | (rid, room) :: rest, sock =>
    if (room.users.find? (fun p => p.1 == sock)).isSome then
      let users2 := room.users.filter (fun p => p.1 != sock)
      if users2.isEmpty then (rest, some rid)
      else ((rid, { users := users2 }) :: rest, some rid)
    else
      let r := removeUserFromRoom rest sock
      ((rid, room) :: r.1, r.2)

/-- Combined server-process state: the rooms.js membership registry and
the drawing-state.js operation logs, which are two distinct global maps. -/
structure ServerState where
  rooms : Rooms
  drawing : RoomStates

/-- State at process start. -/
def initServerState : ServerState := { rooms := [], drawing := emptyRoomStates }

/-- The `join_room` socket handler: defaults roomId/userId when falsy
(`freshUid` standing for `generateId()`), gets or creates the membership
room, registers the connection, and emits `getCanvasState` of the room
(which lazily creates the drawing state). -/
def joinRoom (s : ServerState) (sockId : String) (roomId0 userId0 :
    Option String) (displayName : Option String) (freshUid : String) :
    ServerState × CanvasState :=
  let roomId := jsOrStr roomId0 "default-room"
  let userId := jsOrStr userId0 freshUid
  let rooms1 := createRoom s.rooms roomId
  let rooms2 := setUserInRoom rooms1 roomId sockId
    { userId := userId, displayName := displayName }
  let p := getCanvasState s.drawing roomId
  ({ rooms := rooms2, drawing := p.1 }, p.2)

/-- The `drawing_event` socket handler (also reached by the `undo` and
`redo` handlers, which wrap their arguments into an event). -/
def onDrawingEvent (s : ServerState) (roomId : String) (e : Event)
    (fresh : String) (now : Nat) : ServerState :=
  let p := handleDrawingEvent s.drawing roomId e fresh now
  { rooms := s.rooms, drawing := p.1 }

/-- The `disconnect` socket handler: removes the connection from the
membership registry (deleting an emptied room there) and does nothing
else — in particular it never touches the drawing-state map. -/
def onDisconnect (s : ServerState) (sockId : String) :
    ServerState × Option String :=
  let r := removeUserFromRoom s.rooms sockId
  ({ rooms := r.1, drawing := s.drawing }, r.2)

/-- Run a list of drawing events (each with its generated id and
timestamp) through one room's state. -/
def runEvents (st : RoomState) : List (Event × String × Nat) → RoomState
  | [] => st
  | (e, fresh, now) :: rest =>
    runEvents (handleEventInRoom st e fresh now).1 rest

/-- The reachability invariant on a room's log used by several claims:
the seq values are exactly `1, …, length` and `nextSeq` is one past. -/
def seqsOk (st : RoomState) : Prop :=
  st.opLog.map Op.seq = List.range' 1 st.opLog.length ∧
  st.nextSeq = st.opLog.length + 1

/-! ## Shared lemmas -/

theorem setUndoneAt_map_seq (l : List Op) (i : Nat) (b : Bool) :
    (setUndoneAt l i b).map Op.seq = l.map Op.seq := by
  induction l generalizing i with
  | nil => simp [setUndoneAt]
  | cons o rest ih =>
    cases i with
    | zero => simp [setUndoneAt]
    | succ n => simp [setUndoneAt, ih]

theorem setUndoneAt_append_middle (L1 L2 : List Op) (X : Op) (b : Bool) :
    setUndoneAt (L1 ++ X :: L2) L1.length b
      = L1 ++ { X with undone := b } :: L2 := by
  induction L1 with
  | nil => simp [setUndoneAt]
  | cons o rest ih => simp [setUndoneAt, ih]

theorem handleUndoRedo_shape (st : RoomState) (e : Event) (ty : String)
    (fresh : String) (now : Nat) :
    (handleUndoRedo st e ty fresh now).1.opLog.map Op.seq
        = st.opLog.map Op.seq ++ [st.nextSeq] ∧
    (handleUndoRedo st e ty fresh now).1.nextSeq = st.nextSeq + 1 ∧
    (handleUndoRedo st e ty fresh now).2.seq = st.nextSeq := by
  simp only [handleUndoRedo]
  split
  · simp [appendOp]
  · split <;> simp [appendOp, setUndoneAt_map_seq]

/-- Every branch of `handleEventInRoom` appends exactly one operation,
carrying the next sequence number, and leaves the seq values of the
existing operations untouched. -/
theorem handleEventInRoom_shape (st : RoomState) (e : Event)
    (fresh : String) (now : Nat) :
    (handleEventInRoom st e fresh now).1.opLog.map Op.seq
        = st.opLog.map Op.seq ++ [st.nextSeq] ∧
    (handleEventInRoom st e fresh now).1.nextSeq = st.nextSeq + 1 ∧
    (handleEventInRoom st e fresh now).2.seq = st.nextSeq := by
  simp only [handleEventInRoom]
  split
  · exact handleUndoRedo_shape st e _ fresh now
  · split <;> simp [appendOp]

theorem seqsOk_init : seqsOk initRoomState := by
  constructor <;> simp [initRoomState]

theorem seqsOk_step (st : RoomState) (e : Event) (fresh : String) (now : Nat)
    (h : seqsOk st) : seqsOk (handleEventInRoom st e fresh now).1 := by
  obtain ⟨h1, h2⟩ := h
  obtain ⟨hs1, hs2, _⟩ := handleEventInRoom_shape st e fresh now
  have hlen : (handleEventInRoom st e fresh now).1.opLog.length
      = st.opLog.length + 1 := by
    have := congrArg List.length hs1
    simpa using this
  constructor
  · rw [hs1, h1, h2, hlen, List.range'_concat]
    simp [Nat.add_comm]
  · rw [hs2, h2, hlen]

theorem runEvents_seqsOk (evs : List (Event × String × Nat))
    (st : RoomState) (h : seqsOk st) :
    seqsOk (runEvents st evs) ∧
    (runEvents st evs).opLog.length = st.opLog.length + evs.length := by
  induction evs generalizing st with
  | nil => simpa [runEvents] using h
  | cons ev rest ih =>
    obtain ⟨e, fresh, now⟩ := ev
    have hstep := seqsOk_step st e fresh now h
    obtain ⟨ih1, ih2⟩ := ih (handleEventInRoom st e fresh now).1 hstep
    refine ⟨ih1, ?_⟩
    have hlen : (handleEventInRoom st e fresh now).1.opLog.length
        = st.opLog.length + 1 := by
      have := congrArg List.length (handleEventInRoom_shape st e fresh now).1
      simpa using this
    rw [runEvents, ih2, hlen]
    simp only [List.length_cons]
    omega

theorem setUndoneAt_length (l : List Op) (i : Nat) (b : Bool) :
    (setUndoneAt l i b).length = l.length := by
  induction l generalizing i with
  | nil => simp [setUndoneAt]
  | cons o rest ih =>
    cases i with
    | zero => simp [setUndoneAt]
    | succ n => simp [setUndoneAt, ih]

theorem setUndoneAt_getElem? (l : List Op) (i : Nat) (b : Bool) (o : Op)
    (h : l[i]? = some o) :
    (setUndoneAt l i b)[i]? = some { o with undone := b } := by
  induction l generalizing i with
  | nil => simp at h
  | cons x rest ih =>
    cases i with
    | zero =>
      rw [List.getElem?_cons_zero] at h
      cases h
      simp [setUndoneAt]
    | succ n =>
      rw [List.getElem?_cons_succ] at h
      simpa [setUndoneAt] using ih n h

theorem jsToNull_some_ne_empty (a : Option String) (t : String)
    (h : jsToNull a = some t) : t ≠ "" := by
  cases a with
  | none => cases h
  | some s =>
    by_cases hs : s == ""
    · simp [jsToNull, hs] at h
    · simp [jsToNull, hs] at h
      subst h
      simpa using hs

/-- The op built by `appendOp` in the undo/redo branch (payload
`{type, userId, targetOpId}`), with `userId` and `targetOpId` already
normalized. -/
def undoRedoResultOp (ty : String) (uid : Option String) (tid : Option String)
    (seq : Nat) (fresh : String) (now : Nat) : Op :=
  { seq := seq, opId := fresh, type := ty, userId := uid,
    points := .undef, tool := none, color := none, size := none,
    bbox := .undef, targetOpId := tid, timestamp := now,
    undone := false, raw := none }

/-- When `e.type` is `"undo"` or `"redo"`, `handleEventInRoom` dispatches
into the undo/redo branch with that type string. -/
theorem handleEventInRoom_undoRedo (st : RoomState) (e : Event)
    (fresh : String) (now : Nat) (ty : String)
    (hty : ty = "undo" ∨ ty = "redo") (he : e.type = some ty) :
    handleEventInRoom st e fresh now = handleUndoRedo st e ty fresh now := by
  rcases hty with rfl | rfl <;> simp [handleEventInRoom, he]

/-- Failure case: the resolved target is falsy (null, or an empty
string), so a no-op marker with `targetOpId = null` is appended and the
log is otherwise untouched. -/
theorem handleUndoRedo_noTarget (st : RoomState) (e : Event) (ty : String)
    (fresh : String) (now : Nat)
    (hfail : strTruthy (resolveTarget st e ty) = false) :
    handleUndoRedo st e ty fresh now
      = ({ opLog := st.opLog
             ++ [undoRedoResultOp ty (jsToNull e.userId) none st.nextSeq
                   fresh now],
           nextSeq := st.nextSeq + 1 },
         undoRedoResultOp ty (jsToNull e.userId) none st.nextSeq fresh now) := by
  simp [handleUndoRedo, hfail, appendOp, undoRedoResultOp, jsOrStr, jsToNull]

/-- Failure case: a truthy target resolved, but no log entry carries that
opId; a marker preserving the target is appended and the log is
otherwise untouched. -/
theorem handleUndoRedo_notFound (st : RoomState) (e : Event) (ty : String)
    (fresh : String) (now : Nat) (tid : String)
    (hres : resolveTarget st e ty = some tid) (hne : tid ≠ "")
    (hidx : st.opLog.findIdx? (fun o => o.opId == tid) = none) :
    handleUndoRedo st e ty fresh now
      = ({ opLog := st.opLog
             ++ [undoRedoResultOp ty (jsToNull e.userId) (some tid) st.nextSeq
                   fresh now],
           nextSeq := st.nextSeq + 1 },
         undoRedoResultOp ty (jsToNull e.userId) (some tid) st.nextSeq
           fresh now) := by
  have htr : strTruthy (resolveTarget st e ty) = true := by
    rw [hres]; simp [strTruthy, hne]
  simp [handleUndoRedo, htr, hres, hidx, appendOp, undoRedoResultOp, jsOrStr,
    jsToNull, strTruthy, hne]

/-- Success case: a truthy target resolved and `findIndex` located an
entry with that opId; that entry's `undone` flag is set (true for undo,
false for redo) and the undo/redo op itself is appended. -/
theorem handleUndoRedo_found (st : RoomState) (e : Event) (ty : String)
    (fresh : String) (now : Nat) (tid : String) (idx : Nat)
    (hres : resolveTarget st e ty = some tid) (hne : tid ≠ "")
    (hidx : st.opLog.findIdx? (fun o => o.opId == tid) = some idx) :
    handleUndoRedo st e ty fresh now
      = ({ opLog := setUndoneAt st.opLog idx (ty == "undo")
             ++ [undoRedoResultOp ty (jsToNull e.userId) (some tid) st.nextSeq
                   fresh now],
           nextSeq := st.nextSeq + 1 },
         undoRedoResultOp ty (jsToNull e.userId) (some tid) st.nextSeq
           fresh now) := by
  have htr : strTruthy (resolveTarget st e ty) = true := by
    rw [hres]; simp [strTruthy, hne]
  simp [handleUndoRedo, htr, hres, hidx, appendOp, undoRedoResultOp, jsOrStr,
    jsToNull, strTruthy, hne]

/-- The `undo` socket message with no explicit target. -/
def undoBy (u : String) : Event := { type := some "undo", userId := some u }

/-- The `redo` socket message with no explicit target. -/
def redoBy (u : String) : Event := { type := some "redo", userId := some u }

/-- Implicit resolution: with no explicit target and a truthy user, the
resolved target is the opId of the reverse-scan winner. -/
theorem resolveTarget_implicit (st : RoomState) (u ty : String) (e : Event)
    (hu : u ≠ "") (het : e.targetOpId = none) (heu : e.userId = some u) :
    resolveTarget st e ty
      = (if ty == "undo" then
          (st.opLog.reverse.find? (undoCandidate u)).map Op.opId
         else
          (st.opLog.reverse.find? (redoCandidate u)).map Op.opId) := by
  simp [resolveTarget, het, heu, jsToNull, hu]

/-! ## Claims -/

/-- C1: for every room, the seq values assigned by the log form exactly
the sequence `1, 2, 3, …` with no gaps and no repeats.  First conjunct:
every handled event (stroke, undo, redo, or unknown/raw, from any user)
appends exactly one operation whose seq equals the previous `nextSeq`
(one past the previous highest), preserving the earlier seq values.
Second conjunct: consequently, starting from a fresh room, after any
mix of events the seq values are exactly `1, …, N`. -/
theorem seq_values_gapless :
    (∀ (st : RoomState) (e : Event) (fresh : String) (now : Nat),
      (handleEventInRoom st e fresh now).1.opLog.map Op.seq
          = st.opLog.map Op.seq ++ [st.nextSeq] ∧
      (handleEventInRoom st e fresh now).1.nextSeq = st.nextSeq + 1) ∧
    ∀ (evs : List (Event × String × Nat)),
      (runEvents initRoomState evs).opLog.map Op.seq
        = List.range' 1 evs.length := by
  constructor
  · intro st e fresh now
    exact ⟨(handleEventInRoom_shape st e fresh now).1,
      (handleEventInRoom_shape st e fresh now).2.1⟩
  · intro evs
    obtain ⟨⟨h1, _⟩, hlen⟩ := runEvents_seqsOk evs initRoomState seqsOk_init
    rw [h1, hlen]
    simp [initRoomState]

theorem jsOrStr_idem (a : Option String) (b : String) :
    jsOrStr (some (jsOrStr a b)) b = jsOrStr a b := by
  cases a with
  | none =>
    simp only [jsOrStr]
    split <;> simp_all
  | some s =>
    simp only [jsOrStr]
    by_cases hs : s == ""
    · simp only [hs, if_pos]
      split <;> simp_all
    · simp [hs]

/-- C10: requesting the catch-up snapshot for a roomId with no existing
drawing state never reports absence and is not read-only: it creates a
fresh state for that room as a side effect and returns a snapshot with
an empty opLogTail and lastSeq = 0. -/
theorem snapshot_creates_missing_room (m : RoomStates) (roomId : String)
    (h : m roomId = none) :
    (getCanvasState m roomId).1 roomId = some initRoomState ∧
    (getCanvasState m roomId).2.opLogTail = [] ∧
    (getCanvasState m roomId).2.lastSeq = 0 := by
  have hget : getOrCreateRoomState m roomId
      = ((fun r => if r == roomId then some initRoomState else m r),
         initRoomState) := by
    unfold getOrCreateRoomState
    rw [h]
  unfold getCanvasState
  rw [hget]
  refine ⟨?_, rfl, rfl⟩
  simp

theorem snapshot_creates_missing_room_witness :
    (getCanvasState emptyRoomStates "r").1 "r" = some initRoomState ∧
    (getCanvasState emptyRoomStates "r").2.opLogTail = [] ∧
    (getCanvasState emptyRoomStates "r").2.lastSeq = 0 :=
  snapshot_creates_missing_room emptyRoomStates "r" rfl

/-- C8: the catch-up snapshot's opLogTail never holds more than the
configured bound of 1000 operations, is exactly the most recent suffix
of the room's log (no reordering or duplication), its seq values are
strictly ascending, and lastSeq equals the highest seq assigned. -/
theorem canvas_tail_bounded_ordered (st : RoomState) (h : seqsOk st) :
    (canvasStateOfRoom st).opLogTail.length ≤ 1000 ∧
    (canvasStateOfRoom st).opLogTail
        = st.opLog.drop (st.opLog.length - 1000) ∧
    ((canvasStateOfRoom st).opLogTail.map Op.seq).Pairwise (· < ·) ∧
    (canvasStateOfRoom st).lastSeq = st.opLog.length ∧
    ∀ o ∈ st.opLog, o.seq ≤ st.opLog.length := by
  obtain ⟨h1, h2⟩ := h
  refine ⟨?_, rfl, ?_, ?_, ?_⟩
  · simp only [canvasStateOfRoom, sliceLast, List.length_drop]
    omega
  · have hmap : (canvasStateOfRoom st).opLogTail.map Op.seq
        = (st.opLog.map Op.seq).drop (st.opLog.length - 1000) := by
      simp [canvasStateOfRoom, sliceLast, List.map_drop]
    rw [hmap, h1]
    exact List.Pairwise.sublist (List.drop_sublist _ _)
      (List.pairwise_lt_range' 1 st.opLog.length)
  · simp [canvasStateOfRoom, h2]
  · intro o ho
    have hm : o.seq ∈ st.opLog.map Op.seq := List.mem_map_of_mem Op.seq ho
    rw [h1] at hm
    have := List.mem_range'_1.mp hm
    omega

/-- A one-operation room state used to instantiate hypotheses. -/
def witOp : Op :=
  { seq := 1, opId := "w", type := "stroke_start", userId := some "u",
    points := .undef, tool := some "brush", color := some "#000000",
    size := some 4, bbox := .null, targetOpId := none, timestamp := 0,
    undone := false, raw := none }

theorem canvas_tail_bounded_ordered_witness :
    (canvasStateOfRoom { opLog := [witOp], nextSeq := 2 }).opLogTail.length
        ≤ 1000 ∧
    (canvasStateOfRoom { opLog := [witOp], nextSeq := 2 }).lastSeq
        = ({ opLog := [witOp], nextSeq := 2 } : RoomState).opLog.length :=
  ⟨(canvas_tail_bounded_ordered { opLog := [witOp], nextSeq := 2 }
      ⟨rfl, rfl⟩).1,
   (canvas_tail_bounded_ordered { opLog := [witOp], nextSeq := 2 }
      ⟨rfl, rfl⟩).2.2.2.1⟩

/-- C6: for every stroke-type payload the append path never rejects: it
assigns the next seq, generates an opId when the payload carries none,
substitutes the fallbacks tool="brush", color="#000000", size=4 for
missing fields, stores the operation with undone=false, and the stored
op is the broadcast (returned) canonical copy. -/
theorem stroke_append_never_rejects (st : RoomState) (e : Event)
    (fresh : String) (now : Nat) (t : String)
    (ht : e.type = some t) (hs : startsWithStroke t = true) (hne : t ≠ "") :
    (handleEventInRoom st e fresh now).1.opLog
        = st.opLog ++ [(handleEventInRoom st e fresh now).2] ∧
    (handleEventInRoom st e fresh now).1.nextSeq = st.nextSeq + 1 ∧
    (handleEventInRoom st e fresh now).2.seq = st.nextSeq ∧
    (handleEventInRoom st e fresh now).2.type = t ∧
    (handleEventInRoom st e fresh now).2.undone = false ∧
    (handleEventInRoom st e fresh now).2.opId = jsOrStr e.opId fresh ∧
    (e.opId = none → (handleEventInRoom st e fresh now).2.opId = fresh) ∧
    (handleEventInRoom st e fresh now).2.tool = some (jsOrStr e.tool "brush") ∧
    (e.tool = none → (handleEventInRoom st e fresh now).2.tool
        = some "brush") ∧
    (handleEventInRoom st e fresh now).2.color
        = some (jsOrStr e.color "#000000") ∧
    (e.color = none → (handleEventInRoom st e fresh now).2.color
        = some "#000000") ∧
    (handleEventInRoom st e fresh now).2.size = some (jsOrInt e.size 4) ∧
    (e.size = none → (handleEventInRoom st e fresh now).2.size = some 4) := by
  have hu : t ≠ "undo" := by rintro rfl; exact absurd hs (by decide)
  have hr : t ≠ "redo" := by rintro rfl; exact absurd hs (by decide)
  have hcond : (e.type == some "undo" || e.type == some "redo") = false := by
    simp [ht, hu, hr]
  have hguard :
      (strTruthy e.type && startsWithStroke (e.type.getD "")) = true := by
    simp [ht, strTruthy, hne, hs]
  have heq : handleEventInRoom st e fresh now
      = appendOp st (strokePayload e t fresh) fresh now := by
    simp [handleEventInRoom, ht, hu, hr, hs, hne, strTruthy]
  rw [heq]
  refine ⟨rfl, rfl, rfl, rfl, rfl, ?_, ?_, rfl, ?_, rfl, ?_, rfl, ?_⟩
  · exact jsOrStr_idem e.opId fresh
  · intro h0; simp [appendOp, strokePayload, jsOrStr, h0]
  · intro h0; simp [appendOp, strokePayload, jsOrStr, h0]
  · intro h0; simp [appendOp, strokePayload, jsOrStr, h0]
  · intro h0; simp [appendOp, strokePayload, jsOrInt, h0]

/-- A minimal stroke event carrying only its type. -/
def strokeMoveEv : Event := { type := some "stroke_move" }

theorem stroke_append_never_rejects_witness :
    (handleEventInRoom initRoomState strokeMoveEv "w6" 0).1.opLog
        = initRoomState.opLog
            ++ [(handleEventInRoom initRoomState strokeMoveEv "w6" 0).2] ∧
    (handleEventInRoom initRoomState strokeMoveEv "w6" 0).1.nextSeq
        = initRoomState.nextSeq + 1 ∧
    (handleEventInRoom initRoomState strokeMoveEv "w6" 0).2.seq
        = initRoomState.nextSeq ∧
    (handleEventInRoom initRoomState strokeMoveEv "w6" 0).2.type
        = "stroke_move" ∧
    (handleEventInRoom initRoomState strokeMoveEv "w6" 0).2.undone = false ∧
    (handleEventInRoom initRoomState strokeMoveEv "w6" 0).2.opId
        = jsOrStr strokeMoveEv.opId "w6" ∧
    (strokeMoveEv.opId = none →
      (handleEventInRoom initRoomState strokeMoveEv "w6" 0).2.opId = "w6") ∧
    (handleEventInRoom initRoomState strokeMoveEv "w6" 0).2.tool
        = some (jsOrStr strokeMoveEv.tool "brush") ∧
    (strokeMoveEv.tool = none →
      (handleEventInRoom initRoomState strokeMoveEv "w6" 0).2.tool
        = some "brush") ∧
    (handleEventInRoom initRoomState strokeMoveEv "w6" 0).2.color
        = some (jsOrStr strokeMoveEv.color "#000000") ∧
    (strokeMoveEv.color = none →
      (handleEventInRoom initRoomState strokeMoveEv "w6" 0).2.color
        = some "#000000") ∧
    (handleEventInRoom initRoomState strokeMoveEv "w6" 0).2.size
        = some (jsOrInt strokeMoveEv.size 4) ∧
    (strokeMoveEv.size = none →
      (handleEventInRoom initRoomState strokeMoveEv "w6" 0).2.size
        = some 4) :=
  stroke_append_never_rejects initRoomState strokeMoveEv "w6" 0 "stroke_move"
    rfl (by decide) (by decide)

/-- C5: every undo/redo submission appends exactly one entry to the log
even when resolution fails: with no eligible candidate (falsy resolved
target) a marker operation with targetOpId = null is appended; with a
resolved target matching no log entry a marker preserving that target is
appended; in both failure cases the prior log — hence every undone flag
— is untouched. -/
theorem undo_redo_marker_on_failure (st : RoomState) (e : Event)
    (fresh : String) (now : Nat) (ty : String)
    (hty : ty = "undo" ∨ ty = "redo") (he : e.type = some ty) :
    (strTruthy (resolveTarget st e ty) = false →
      (handleEventInRoom st e fresh now).1.opLog
          = st.opLog ++ [(handleEventInRoom st e fresh now).2] ∧
      (handleEventInRoom st e fresh now).2.targetOpId = none ∧
      (handleEventInRoom st e fresh now).2.type = ty) ∧
    (∀ tid : String, resolveTarget st e ty = some tid → tid ≠ "" →
      st.opLog.findIdx? (fun o => o.opId == tid) = none →
      (handleEventInRoom st e fresh now).1.opLog
          = st.opLog ++ [(handleEventInRoom st e fresh now).2] ∧
      (handleEventInRoom st e fresh now).2.targetOpId = some tid ∧
      (handleEventInRoom st e fresh now).2.type = ty) := by
  rw [handleEventInRoom_undoRedo st e fresh now ty hty he]
  constructor
  · intro hfail
    rw [handleUndoRedo_noTarget st e ty fresh now hfail]
    simp [undoRedoResultOp]
  · intro tid hres hne hidx
    rw [handleUndoRedo_notFound st e ty fresh now tid hres hne hidx]
    simp [undoRedoResultOp]

theorem undo_redo_marker_on_failure_witness :
    (handleEventInRoom initRoomState (undoBy "u1") "w5" 0).1.opLog
        = initRoomState.opLog
            ++ [(handleEventInRoom initRoomState (undoBy "u1") "w5" 0).2] ∧
    (handleEventInRoom initRoomState (undoBy "u1") "w5" 0).2.targetOpId
        = none ∧
    (handleEventInRoom initRoomState (undoBy "u1") "w5" 0).2.type = "undo" :=
  (undo_redo_marker_on_failure initRoomState (undoBy "u1") "w5" 0 "undo"
      (Or.inl rfl) rfl).1 (by decide)

/-- C9: with an explicit targetOpId that exists in the log, resolution
applies no eligibility check: the undone flag of the first log entry
with that opId is set (true for undo, false for redo) even if that entry
is not a stroke, was authored by another user, or already had the
requested value — no hypothesis about the entry is needed — and a
regular undo/redo operation carrying the target is appended. -/
theorem explicit_target_bypasses_eligibility (st : RoomState) (e : Event)
    (fresh : String) (now : Nat) (ty tid : String) (idx : Nat) (o : Op)
    (hty : ty = "undo" ∨ ty = "redo") (he : e.type = some ty)
    (ht : jsToNull e.targetOpId = some tid)
    (hidx : st.opLog.findIdx? (fun x => x.opId == tid) = some idx)
    (ho : st.opLog[idx]? = some o) :
    (handleEventInRoom st e fresh now).1.opLog
        = setUndoneAt st.opLog idx (ty == "undo")
            ++ [(handleEventInRoom st e fresh now).2] ∧
    (handleEventInRoom st e fresh now).1.opLog[idx]?
        = some { o with undone := (ty == "undo") } ∧
    (handleEventInRoom st e fresh now).2.targetOpId = some tid ∧
    (handleEventInRoom st e fresh now).2.type = ty := by
  have hne := jsToNull_some_ne_empty e.targetOpId tid ht
  have hres : resolveTarget st e ty = some tid := by
    simp [resolveTarget, ht]
  rw [handleEventInRoom_undoRedo st e fresh now ty hty he,
    handleUndoRedo_found st e ty fresh now tid idx hres hne hidx]
  refine ⟨rfl, ?_, rfl, rfl⟩
  have hlt : idx < st.opLog.length := by
    by_contra hge
    rw [List.getElem?_eq_none (by omega)] at ho
    cases ho
  rw [List.getElem?_append]
  rw [setUndoneAt_length]
  rw [if_pos hlt]
  exact setUndoneAt_getElem? st.opLog idx _ o ho

/-- A log entry that is not a stroke, by another user, already undone. -/
def c9Op : Op :=
  { seq := 1, opId := "z", type := "unknown", userId := some "other",
    points := .undef, tool := none, color := none, size := none,
    bbox := .undef, targetOpId := none, timestamp := 0,
    undone := true, raw := none }

/-- An undo with an explicit target naming `c9Op`. -/
def c9Event : Event :=
  { type := some "undo", userId := some "u1", targetOpId := some "z" }

theorem explicit_target_bypasses_eligibility_witness :
    (handleEventInRoom { opLog := [c9Op], nextSeq := 2 } c9Event "w9" 0).1.opLog
        = setUndoneAt [c9Op] 0 true
            ++ [(handleEventInRoom { opLog := [c9Op], nextSeq := 2 } c9Event
                  "w9" 0).2] ∧
    (handleEventInRoom { opLog := [c9Op], nextSeq := 2 } c9Event
        "w9" 0).1.opLog[0]? = some { c9Op with undone := true } ∧
    (handleEventInRoom { opLog := [c9Op], nextSeq := 2 } c9Event
        "w9" 0).2.targetOpId = some "z" ∧
    (handleEventInRoom { opLog := [c9Op], nextSeq := 2 } c9Event
        "w9" 0).2.type = "undo" :=
  explicit_target_bypasses_eligibility { opLog := [c9Op], nextSeq := 2 }
    c9Event "w9" 0 "undo" "z" 0 c9Op (Or.inl rfl) rfl (by decide) (by decide)
    (by decide)

/-- A no-target undo whose reverse scan finds candidate `cand`, located
at `idx` by the forward `findIndex`: the flag at `idx` is set and an
undo op targeting `cand.opId` is appended. -/
theorem implicit_undo_found (st : RoomState) (u fresh : String) (now : Nat)
    (cand : Op) (idx : Nat) (hu : u ≠ "") (hcid : cand.opId ≠ "")
    (hfind : st.opLog.reverse.find? (undoCandidate u) = some cand)
    (hidx : st.opLog.findIdx? (fun o => o.opId == cand.opId) = some idx) :
    handleEventInRoom st (undoBy u) fresh now
      = ({ opLog := setUndoneAt st.opLog idx true
             ++ [undoRedoResultOp "undo" (some u) (some cand.opId) st.nextSeq
                   fresh now],
           nextSeq := st.nextSeq + 1 },
         undoRedoResultOp "undo" (some u) (some cand.opId) st.nextSeq
           fresh now) := by
  have hres : resolveTarget st (undoBy u) "undo" = some cand.opId := by
    rw [resolveTarget_implicit st u "undo" (undoBy u) hu rfl rfl]
    simp [hfind]
  rw [handleEventInRoom_undoRedo st (undoBy u) fresh now "undo" (Or.inl rfl)
      rfl,
    handleUndoRedo_found st (undoBy u) "undo" fresh now cand.opId idx hres
      hcid hidx]
  simp [undoBy, jsToNull, hu]

/-- A no-target undo with no eligible candidate: a marker with
`targetOpId = null` is appended and nothing else changes. -/
theorem implicit_undo_none (st : RoomState) (u fresh : String) (now : Nat)
    (hu : u ≠ "")
    (hfind : st.opLog.reverse.find? (undoCandidate u) = none) :
    handleEventInRoom st (undoBy u) fresh now
      = ({ opLog := st.opLog
             ++ [undoRedoResultOp "undo" (some u) none st.nextSeq fresh now],
           nextSeq := st.nextSeq + 1 },
         undoRedoResultOp "undo" (some u) none st.nextSeq fresh now) := by
  have hres : resolveTarget st (undoBy u) "undo" = none := by
    rw [resolveTarget_implicit st u "undo" (undoBy u) hu rfl rfl]
    simp [hfind]
  have hfail : strTruthy (resolveTarget st (undoBy u) "undo") = false := by
    rw [hres]; rfl
  rw [handleEventInRoom_undoRedo st (undoBy u) fresh now "undo" (Or.inl rfl)
      rfl,
    handleUndoRedo_noTarget st (undoBy u) "undo" fresh now hfail]
  simp [undoBy, jsToNull, hu]

/-- A no-target redo whose reverse scan finds candidate `cand`: the flag
at `idx` is cleared and a redo op targeting `cand.opId` is appended. -/
theorem implicit_redo_found (st : RoomState) (u fresh : String) (now : Nat)
    (cand : Op) (idx : Nat) (hu : u ≠ "") (hcid : cand.opId ≠ "")
    (hfind : st.opLog.reverse.find? (redoCandidate u) = some cand)
    (hidx : st.opLog.findIdx? (fun o => o.opId == cand.opId) = some idx) :
    handleEventInRoom st (redoBy u) fresh now
      = ({ opLog := setUndoneAt st.opLog idx false
             ++ [undoRedoResultOp "redo" (some u) (some cand.opId) st.nextSeq
                   fresh now],
           nextSeq := st.nextSeq + 1 },
         undoRedoResultOp "redo" (some u) (some cand.opId) st.nextSeq
           fresh now) := by
  have hres : resolveTarget st (redoBy u) "redo" = some cand.opId := by
    rw [resolveTarget_implicit st u "redo" (redoBy u) hu rfl rfl]
    simp [hfind]
  have := handleUndoRedo_found st (redoBy u) "redo" fresh now cand.opId idx
    hres hcid hidx
  rw [handleEventInRoom_undoRedo st (redoBy u) fresh now "redo" (Or.inr rfl)
      rfl, this]
  simp [redoBy, jsToNull, hu]

/-! ### C2: room lifecycle vs. drawing state -/

/-- A stroke event used in the room-lifecycle scenario. -/
def c2Stroke : Event :=
  { type := some "stroke_start", opId := some "sA", userId := some "u1" }

/-- One user joins room "room1". -/
def c2State1 : ServerState :=
  (joinRoom initServerState "sock1" (some "room1") (some "u1") none "gen1").1

/-- That user draws one stroke. -/
def c2State2 : ServerState := onDrawingEvent c2State1 "room1" c2Stroke "g2" 5

/-- The only member disconnects. -/
def c2Disc : ServerState × Option String := onDisconnect c2State2 "sock1"

/-- A second user re-joins the same roomId. -/
def c2Rejoin : ServerState × CanvasState :=
  joinRoom c2Disc.1 "sock2" (some "room1") (some "u2") none "gen2"

/-- C2 counterexample: the last member of "room1" leaves (the membership
registry drops the room and reports it), yet a re-join for the same
roomId does NOT see an empty log: lastSeq is 1 and the stored stroke is
still in the catch-up tail, because the disconnect path never clears the
drawing state. -/
theorem room_deletion_keeps_log_cex :
    c2Disc.1.rooms = [] ∧
    c2Disc.2 = some "room1" ∧
    ¬ (c2Rejoin.2.lastSeq = 0 ∧ c2Rejoin.2.opLogTail = []) := by
  refine ⟨by decide, by decide, by decide⟩

/-- C2 amended: after the last member of a room leaves, the membership
room is deleted from the rooms.js registry, but the drawing state and
its operation log are NOT destroyed: the disconnect handler never
modifies the drawing-state map, so a later getCanvasState (re-join) for
the same roomId returns the prior log. -/
theorem disconnect_preserves_drawing (s : ServerState) (sock : String) :
    (onDisconnect s sock).1.drawing = s.drawing ∧
    ∀ roomId : String,
      getCanvasState (onDisconnect s sock).1.drawing roomId
        = getCanvasState s.drawing roomId :=
  ⟨rfl, fun _ => rfl⟩

/-! ### C3: undo with a shared opId across sub-operations -/

/-- The stroke_start of the C3 scenario (opId "s1", user "u1"). -/
def c3Stroke1 : Event :=
  { type := some "stroke_start", opId := some "s1", userId := some "u1" }

/-- The stroke_end of the C3 scenario (same opId "s1"). -/
def c3Stroke2 : Event :=
  { type := some "stroke_end", opId := some "s1", userId := some "u1" }

/-- The room after the two stroke events. -/
def c3Before : RoomState :=
  runEvents initRoomState [(c3Stroke1, "g1", 1), (c3Stroke2, "g2", 2)]

/-- The room after u1's no-target undo. -/
def c3After : RoomState :=
  (handleEventInRoom c3Before (undoBy "u1") "g3" 3).1

/-- C3 counterexample: the claim predicts that the undo sets the seq=2
entry's undone flag (leaving seq=1 false); the code does the opposite,
because findIndex locates the FIRST log entry with opId "s1". -/
theorem undo_shared_opId_cex :
    ¬ (c3After.opLog.map (fun o => (o.seq, o.undone))
        = [(1, false), (2, true), (3, false)]) := by decide

/-- C3 amended: the two stroke events produce seq=1,2 with opId "s1",
both undone=false; u1's no-target undo resolves by reverse scan to the
most recent eligible stroke (the seq=2 entry) yielding targetOpId "s1",
then sets the undone flag of the FIRST entry with opId "s1" — the seq=1
entry — leaving the seq=2 entry's flag false, and appends an undo
operation at seq=3 carrying targetOpId "s1". -/
theorem undo_shared_opId_amended :
    c3Before.opLog.map (fun o => (o.seq, o.opId, o.undone))
      = [(1, "s1", false), (2, "s1", false)] ∧
    (c3Before.opLog.reverse.find? (undoCandidate "u1")).map Op.seq
      = some 2 ∧
    resolveTarget c3Before (undoBy "u1") "undo" = some "s1" ∧
    c3After.opLog.map
        (fun o => (o.seq, o.opId, o.undone, o.type, o.targetOpId))
      = [(1, "s1", true, "stroke_start", none),
         (2, "s1", false, "stroke_end", none),
         (3, "g3", false, "undo", some "s1")] := by
  refine ⟨by decide, by decide, by decide, by decide⟩

/-! ### C4: successive no-target undos walk the user's strokes backwards -/

/-- C4: with three stroke operations A, B, C by the same user, in that
seq order, none undone, with distinct (nonempty) opIds, a first
no-target undo resolves to C (highest seq), a second to B, a third to A,
and a fourth finds no candidate and appends a no-op marker with
targetOpId = null, the final log being the three flagged strokes
followed by the four undo ops. -/
theorem undo_targets_most_recent_first (A B C : Op) (u : String) (n : Nat)
    (f1 f2 f3 f4 : String) (t1 t2 t3 t4 : Nat)
    (hu : u ≠ "")
    (hA : strokeBy u A = true) (hAu : A.undone = false) (hAid : A.opId ≠ "")
    (hB : strokeBy u B = true) (hBu : B.undone = false) (hBid : B.opId ≠ "")
    (hC : strokeBy u C = true) (hCu : C.undone = false) (hCid : C.opId ≠ "")
    (hAB : A.opId ≠ B.opId) (hAC : A.opId ≠ C.opId) (hBC : B.opId ≠ C.opId)
    (r1 r2 r3 r4 : RoomState × Op)
    (h1 : r1 = handleEventInRoom { opLog := [A, B, C], nextSeq := n }
        (undoBy u) f1 t1)
    (h2 : r2 = handleEventInRoom r1.1 (undoBy u) f2 t2)
    (h3 : r3 = handleEventInRoom r2.1 (undoBy u) f3 t3)
    (h4 : r4 = handleEventInRoom r3.1 (undoBy u) f4 t4) :
    r1.2.targetOpId = some C.opId ∧
    r2.2.targetOpId = some B.opId ∧
    r3.2.targetOpId = some A.opId ∧
    r4.2.targetOpId = none ∧
    r4.1.opLog = [{ A with undone := true }, { B with undone := true },
      { C with undone := true }, r1.2, r2.2, r3.2, r4.2] := by
  subst h1 h2 h3 h4
  have hnds : startsWithStroke "undo" = false := by decide
  have hcA : undoCandidate u A = true := by
    simp [undoCandidate, hA, hAu]
  have hcB : undoCandidate u B = true := by
    simp [undoCandidate, hB, hBu]
  have hcC : undoCandidate u C = true := by
    simp [undoCandidate, hC, hCu]
  have hcA' : undoCandidate u { A with undone := true } = false := by
    simp [undoCandidate]
  have hcB' : undoCandidate u { B with undone := true } = false := by
    simp [undoCandidate]
  have hcC' : undoCandidate u { C with undone := true } = false := by
    simp [undoCandidate]
  have hcM : ∀ (uid tid : Option String) (s : Nat) (f : String) (t : Nat),
      undoCandidate u (undoRedoResultOp "undo" uid tid s f t) = false := by
    intro uid tid s f t
    simp [undoCandidate, strokeBy, undoRedoResultOp, hnds]
  -- step 1: scan resolves C, findIndex lands on index 2
  have hf1 : ([A, B, C] : List Op).reverse.find? (undoCandidate u)
      = some C := by
    simp [hcC]
  have hi1 : ([A, B, C] : List Op).findIdx? (fun o => o.opId == C.opId)
      = some 2 := by
    simp [List.findIdx?_cons, hAC, hBC]
  have e1 : handleEventInRoom { opLog := [A, B, C], nextSeq := n }
        (undoBy u) f1 t1
      = ({ opLog := [A, B, { C with undone := true },
            undoRedoResultOp "undo" (some u) (some C.opId) n f1 t1],
           nextSeq := n + 1 },
         undoRedoResultOp "undo" (some u) (some C.opId) n f1 t1) := by
    rw [implicit_undo_found _ u f1 t1 C 2 hu hCid hf1 hi1]
    simp [setUndoneAt]
  -- step 2: C is now undone, the undo op is not a stroke, so B wins
  have hf2 : ([A, B, { C with undone := true },
        undoRedoResultOp "undo" (some u) (some C.opId) n f1 t1] :
        List Op).reverse.find? (undoCandidate u) = some B := by
    simp [hcM, hcC', hcB]
  have hi2 : ([A, B, { C with undone := true },
        undoRedoResultOp "undo" (some u) (some C.opId) n f1 t1] :
        List Op).findIdx? (fun o => o.opId == B.opId) = some 1 := by
    simp [List.findIdx?_cons, hAB]
  have e2 : handleEventInRoom
        ({ opLog := [A, B, { C with undone := true },
            undoRedoResultOp "undo" (some u) (some C.opId) n f1 t1],
           nextSeq := n + 1 } : RoomState) (undoBy u) f2 t2
      = ({ opLog := [A, { B with undone := true },
            { C with undone := true },
            undoRedoResultOp "undo" (some u) (some C.opId) n f1 t1,
            undoRedoResultOp "undo" (some u) (some B.opId) (n + 1) f2 t2],
           nextSeq := n + 1 + 1 },
         undoRedoResultOp "undo" (some u) (some B.opId) (n + 1) f2 t2) := by
    rw [implicit_undo_found _ u f2 t2 B 1 hu hBid hf2 hi2]
    simp [setUndoneAt]
  -- step 3: B and C are undone, so A wins
  have hf3 : ([A, { B with undone := true }, { C with undone := true },
        undoRedoResultOp "undo" (some u) (some C.opId) n f1 t1,
        undoRedoResultOp "undo" (some u) (some B.opId) (n + 1) f2 t2] :
        List Op).reverse.find? (undoCandidate u) = some A := by
    simp [hcM, hcB', hcC', hcA]
  have hi3 : ([A, { B with undone := true }, { C with undone := true },
        undoRedoResultOp "undo" (some u) (some C.opId) n f1 t1,
        undoRedoResultOp "undo" (some u) (some B.opId) (n + 1) f2 t2] :
        List Op).findIdx? (fun o => o.opId == A.opId) = some 0 := by
    simp [List.findIdx?_cons]
  have e3 : handleEventInRoom
        ({ opLog := [A, { B with undone := true }, { C with undone := true },
            undoRedoResultOp "undo" (some u) (some C.opId) n f1 t1,
            undoRedoResultOp "undo" (some u) (some B.opId) (n + 1) f2 t2],
           nextSeq := n + 1 + 1 } : RoomState) (undoBy u) f3 t3
      = ({ opLog := [{ A with undone := true }, { B with undone := true },
            { C with undone := true },
            undoRedoResultOp "undo" (some u) (some C.opId) n f1 t1,
            undoRedoResultOp "undo" (some u) (some B.opId) (n + 1) f2 t2,
            undoRedoResultOp "undo" (some u) (some A.opId) (n + 1 + 1)
              f3 t3],
           nextSeq := n + 1 + 1 + 1 },
         undoRedoResultOp "undo" (some u) (some A.opId) (n + 1 + 1)
           f3 t3) := by
    rw [implicit_undo_found _ u f3 t3 A 0 hu hAid hf3 hi3]
    simp [setUndoneAt]
  -- step 4: nothing eligible remains
  have hf4 : ([{ A with undone := true }, { B with undone := true },
        { C with undone := true },
        undoRedoResultOp "undo" (some u) (some C.opId) n f1 t1,
        undoRedoResultOp "undo" (some u) (some B.opId) (n + 1) f2 t2,
        undoRedoResultOp "undo" (some u) (some A.opId) (n + 1 + 1) f3 t3] :
        List Op).reverse.find? (undoCandidate u) = none := by
    simp [hcM, hcA', hcB', hcC']
  have e4 : handleEventInRoom
        ({ opLog := [{ A with undone := true }, { B with undone := true },
            { C with undone := true },
            undoRedoResultOp "undo" (some u) (some C.opId) n f1 t1,
            undoRedoResultOp "undo" (some u) (some B.opId) (n + 1) f2 t2,
            undoRedoResultOp "undo" (some u) (some A.opId) (n + 1 + 1)
              f3 t3],
           nextSeq := n + 1 + 1 + 1 } : RoomState) (undoBy u) f4 t4
      = ({ opLog := [{ A with undone := true }, { B with undone := true },
            { C with undone := true },
            undoRedoResultOp "undo" (some u) (some C.opId) n f1 t1,
            undoRedoResultOp "undo" (some u) (some B.opId) (n + 1) f2 t2,
            undoRedoResultOp "undo" (some u) (some A.opId) (n + 1 + 1) f3 t3,
            undoRedoResultOp "undo" (some u) none (n + 1 + 1 + 1) f4 t4],
           nextSeq := n + 1 + 1 + 1 + 1 },
         undoRedoResultOp "undo" (some u) none (n + 1 + 1 + 1) f4 t4) := by
    rw [implicit_undo_none _ u f4 t4 hu hf4]
    simp
  simp only [e1, e2, e3, e4]
  simp [undoRedoResultOp]

/-- A second one-stroke user state: three strokes "a","b","c" by "u1". -/
def c4OpA : Op :=
  { seq := 1, opId := "a", type := "stroke_start", userId := some "u1",
    points := .undef, tool := some "brush", color := some "#000000",
    size := some 4, bbox := .null, targetOpId := none, timestamp := 0,
    undone := false, raw := none }

/-- Second stroke of the C4 witness log. -/
def c4OpB : Op := { c4OpA with seq := 2, opId := "b" }

/-- Third stroke of the C4 witness log. -/
def c4OpC : Op := { c4OpA with seq := 3, opId := "c" }

theorem undo_targets_most_recent_first_witness :
    (handleEventInRoom { opLog := [c4OpA, c4OpB, c4OpC], nextSeq := 4 }
        (undoBy "u1") "g4" 4).2.targetOpId = some c4OpC.opId ∧
    (handleEventInRoom (handleEventInRoom
        { opLog := [c4OpA, c4OpB, c4OpC], nextSeq := 4 }
        (undoBy "u1") "g4" 4).1 (undoBy "u1") "g5" 5).2.targetOpId
      = some c4OpB.opId ∧
    (handleEventInRoom (handleEventInRoom (handleEventInRoom
        { opLog := [c4OpA, c4OpB, c4OpC], nextSeq := 4 }
        (undoBy "u1") "g4" 4).1 (undoBy "u1") "g5" 5).1
        (undoBy "u1") "g6" 6).2.targetOpId = some c4OpA.opId ∧
    (handleEventInRoom (handleEventInRoom (handleEventInRoom
        (handleEventInRoom { opLog := [c4OpA, c4OpB, c4OpC], nextSeq := 4 }
          (undoBy "u1") "g4" 4).1 (undoBy "u1") "g5" 5).1
        (undoBy "u1") "g6" 6).1 (undoBy "u1") "g7" 7).2.targetOpId = none ∧
    (handleEventInRoom (handleEventInRoom (handleEventInRoom
        (handleEventInRoom { opLog := [c4OpA, c4OpB, c4OpC], nextSeq := 4 }
          (undoBy "u1") "g4" 4).1 (undoBy "u1") "g5" 5).1
        (undoBy "u1") "g6" 6).1 (undoBy "u1") "g7" 7).1.opLog
      = [{ c4OpA with undone := true }, { c4OpB with undone := true },
         { c4OpC with undone := true },
         (handleEventInRoom { opLog := [c4OpA, c4OpB, c4OpC], nextSeq := 4 }
            (undoBy "u1") "g4" 4).2,
         (handleEventInRoom (handleEventInRoom
            { opLog := [c4OpA, c4OpB, c4OpC], nextSeq := 4 }
            (undoBy "u1") "g4" 4).1 (undoBy "u1") "g5" 5).2,
         (handleEventInRoom (handleEventInRoom (handleEventInRoom
            { opLog := [c4OpA, c4OpB, c4OpC], nextSeq := 4 }
            (undoBy "u1") "g4" 4).1 (undoBy "u1") "g5" 5).1
            (undoBy "u1") "g6" 6).2,
         (handleEventInRoom (handleEventInRoom (handleEventInRoom
            (handleEventInRoom
              { opLog := [c4OpA, c4OpB, c4OpC], nextSeq := 4 }
              (undoBy "u1") "g4" 4).1 (undoBy "u1") "g5" 5).1
            (undoBy "u1") "g6" 6).1 (undoBy "u1") "g7" 7).2] :=
  undo_targets_most_recent_first c4OpA c4OpB c4OpC "u1" 4 "g4" "g5" "g6" "g7"
    4 5 6 7 (by decide)
    (by decide) (by decide) (by decide)
    (by decide) (by decide) (by decide)
    (by decide) (by decide) (by decide)
    (by decide) (by decide) (by decide)
    _ _ _ _ rfl rfl rfl rfl

/-! ### C7: undo-then-redo round trip -/

/-- Stroke "x" by u1 (the X of the scenario). -/
def c7StrokeX : Event :=
  { type := some "stroke_start", opId := some "x", userId := some "u1" }

/-- A later stroke "y" by u1. -/
def c7StrokeY : Event :=
  { type := some "stroke_start", opId := some "y", userId := some "u1" }

/-- An explicit undo of "y", making it an already-undone later stroke. -/
def c7UndoY : Event :=
  { type := some "undo", userId := some "u1", targetOpId := some "y" }

/-- Log of N = 3 operations in which "x" is u1's most recent eligible
stroke ("y" is a stroke but already undone, the undo op is no stroke). -/
def c7Before : RoomState :=
  runEvents initRoomState
    [(c7StrokeX, "g1", 1), (c7StrokeY, "g2", 2), (c7UndoY, "g3", 3)]

/-- The state after u1's no-target undo followed by a no-target redo. -/
def c7After : RoomState :=
  runEvents c7Before [(undoBy "u1", "g4", 4), (redoBy "u1", "g5", 5)]

/-- C7 counterexample: in `c7Before`, stroke "x" is u1's most recent
eligible stroke (first conjunct) and the log grows by exactly 2, yet
undo-then-redo does NOT restore "x": the redo is captured by the
already-undone later stroke "y", so "x" (at index 0) stays undone and
the redo op does not carry targetOpId "x". -/
theorem undo_redo_round_trip_cex :
    (c7Before.opLog.reverse.find? (undoCandidate "u1")).map Op.opId
      = some "x" ∧
    c7After.opLog.length = c7Before.opLog.length + 2 ∧
    ¬ (c7After.opLog[0]?.map Op.undone = some false ∧
       c7After.opLog[4]?.map Op.targetOpId = some (some "x")) := by
  refine ⟨by decide, by decide, by decide⟩

/-- C7 amended: the round trip holds with the extra hypothesis that no
stroke operation by the same user occurs later in the log than X (a
later already-undone stroke by that user captures the redo instead):
undoing then redoing with no explicit target leaves the original log —
X included, bit for bit — as a prefix, and appends exactly the undo op
and the redo op, both carrying targetOpId = X.opId. -/
theorem undo_redo_round_trip_amended (L1 L2 : List Op) (X : Op)
    (u : String) (n t1 t2 : Nat) (f1 f2 : String)
    (hu : u ≠ "") (hXid : X.opId ≠ "")
    (hX : strokeBy u X = true) (hXu : X.undone = false)
    (hL2 : ∀ o ∈ L2, strokeBy u o = false)
    (hL1 : ∀ o ∈ L1, o.opId ≠ X.opId)
    (r1 r2 : RoomState × Op)
    (h1 : r1 = handleEventInRoom { opLog := L1 ++ X :: L2, nextSeq := n }
        (undoBy u) f1 t1)
    (h2 : r2 = handleEventInRoom r1.1 (redoBy u) f2 t2) :
    r1.2.targetOpId = some X.opId ∧
    r2.2.targetOpId = some X.opId ∧
    r2.1.opLog = (L1 ++ X :: L2) ++ [r1.2, r2.2] ∧
    r2.1.opLog.length = (L1 ++ X :: L2).length + 2 := by
  subst h1 h2
  have hcX : undoCandidate u X = true := by
    simp [undoCandidate, hX, hXu]
  have hL2u : ∀ o ∈ L2, undoCandidate u o = false := by
    intro o ho
    simp [undoCandidate, hL2 o ho]
  have hL2r : ∀ o ∈ L2, redoCandidate u o = false := by
    intro o ho
    simp [redoCandidate, hL2 o ho]
  have hfindU : (L1 ++ X :: L2).reverse.find? (undoCandidate u)
      = some X := by
    have hL2none : L2.reverse.find? (undoCandidate u) = none := by
      rw [List.find?_eq_none]
      intro x hx
      simp [hL2u x (List.mem_reverse.mp hx)]
    rw [List.reverse_append, List.reverse_cons, List.find?_append,
      List.find?_append, hL2none]
    simp [hcX]
  have hL1none : L1.findIdx? (fun o => o.opId == X.opId) = none := by
    rw [List.findIdx?_eq_none_iff]
    intro x hx
    simp [hL1 x hx]
  have hidxU : (L1 ++ X :: L2).findIdx? (fun o => o.opId == X.opId)
      = some L1.length := by
    rw [List.findIdx?_append, hL1none]
    simp [List.findIdx?_cons]
  have e1 : handleEventInRoom { opLog := L1 ++ X :: L2, nextSeq := n }
        (undoBy u) f1 t1
      = ({ opLog := L1 ++ { X with undone := true }
             :: (L2 ++ [undoRedoResultOp "undo" (some u) (some X.opId) n
                   f1 t1]),
           nextSeq := n + 1 },
         undoRedoResultOp "undo" (some u) (some X.opId) n f1 t1) := by
    rw [implicit_undo_found _ u f1 t1 X L1.length hu hXid hfindU hidxU,
      setUndoneAt_append_middle]
    simp
  have hrX : redoCandidate u { X with undone := true } = true := by
    have hsX : strokeBy u { X with undone := true } = strokeBy u X := rfl
    simp [redoCandidate, hsX, hX]
  have hrM : redoCandidate u (undoRedoResultOp "undo" (some u)
      (some X.opId) n f1 t1) = false := by
    simp [redoCandidate, undoRedoResultOp]
  have hfindR : (L1 ++ { X with undone := true }
        :: (L2 ++ [undoRedoResultOp "undo" (some u) (some X.opId) n f1 t1])
        ).reverse.find? (redoCandidate u)
      = some { X with undone := true } := by
    have hL2none2 : L2.reverse.find? (redoCandidate u) = none := by
      rw [List.find?_eq_none]
      intro x hx
      simp [hL2r x (List.mem_reverse.mp hx)]
    rw [List.reverse_append, List.reverse_cons, List.reverse_append,
      List.find?_append, List.find?_append]
    simp [List.find?_cons, hrM, hL2none2, hrX]
  have hidxR : (L1 ++ { X with undone := true }
        :: (L2 ++ [undoRedoResultOp "undo" (some u) (some X.opId) n f1 t1])
        ).findIdx? (fun o => o.opId == X.opId) = some L1.length := by
    rw [List.findIdx?_append, hL1none]
    simp [List.findIdx?_cons]
  have hXeq : ({ X with undone := false } : Op) = X := by
    obtain ⟨xs, xo, xt, xu2, xp, xtl, xc, xsz, xb, xtg, xts, xud, xr⟩ := X
    cases hXu
    rfl
  have e2 : handleEventInRoom
        ({ opLog := L1 ++ { X with undone := true }
             :: (L2 ++ [undoRedoResultOp "undo" (some u) (some X.opId) n
                   f1 t1]),
           nextSeq := n + 1 } : RoomState) (redoBy u) f2 t2
      = ({ opLog := (L1 ++ X :: (L2
              ++ [undoRedoResultOp "undo" (some u) (some X.opId) n f1 t1]))
             ++ [undoRedoResultOp "redo" (some u) (some X.opId) (n + 1)
                   f2 t2],
           nextSeq := n + 1 + 1 },
         undoRedoResultOp "redo" (some u) (some X.opId) (n + 1) f2 t2) := by
    rw [implicit_redo_found _ u f2 t2 { X with undone := true } L1.length hu
      hXid hfindR hidxR, setUndoneAt_append_middle]
    simp [hXeq]
  simp only [e1, e2]
  refine ⟨rfl, rfl, ?_, ?_⟩
  · simp
  · simp [List.length_append]
    omega

/-- A lone stroke by u1 used to instantiate the round-trip theorem. -/
def c7X : Op :=
  { seq := 1, opId := "x", type := "stroke_start", userId := some "u1",
    points := .undef, tool := some "brush", color := some "#000000",
    size := some 4, bbox := .null, targetOpId := none, timestamp := 0,
    undone := false, raw := none }

theorem undo_redo_round_trip_amended_witness :
    (handleEventInRoom { opLog := [] ++ c7X :: [], nextSeq := 2 }
        (undoBy "u1") "g4" 4).2.targetOpId = some c7X.opId ∧
    (handleEventInRoom (handleEventInRoom
        { opLog := [] ++ c7X :: [], nextSeq := 2 }
        (undoBy "u1") "g4" 4).1 (redoBy "u1") "g5" 5).2.targetOpId
      = some c7X.opId ∧
    (handleEventInRoom (handleEventInRoom
        { opLog := [] ++ c7X :: [], nextSeq := 2 }
        (undoBy "u1") "g4" 4).1 (redoBy "u1") "g5" 5).1.opLog
      = ([] ++ c7X :: [])
          ++ [(handleEventInRoom { opLog := [] ++ c7X :: [], nextSeq := 2 }
                (undoBy "u1") "g4" 4).2,
              (handleEventInRoom (handleEventInRoom
                { opLog := [] ++ c7X :: [], nextSeq := 2 }
                (undoBy "u1") "g4" 4).1 (redoBy "u1") "g5" 5).2] ∧
    (handleEventInRoom (handleEventInRoom
        { opLog := [] ++ c7X :: [], nextSeq := 2 }
        (undoBy "u1") "g4" 4).1 (redoBy "u1") "g5" 5).1.opLog.length
      = ([] ++ c7X :: []).length + 2 :=
  undo_redo_round_trip_amended [] [] c7X "u1" 2 4 5 "g4" "g5"
    (by decide) (by decide) (by decide) (by decide)
    (by intro o ho; cases ho) (by intro o ho; cases ho)
    _ _ rfl rfl

end Canvas
